import Mathlib

/-!
Shallow embedding of the `telemetry-action` repository (TypeScript sources
`src/types.ts`, `src/monitor.ts`, `src/main.ts`, `src/post.ts`,
`src/charts.ts`) together with proofs about the embedded operations.

Conventions of the embedding:
* JavaScript strings are `List Char`; JavaScript numbers are `ℚ` (the
  sampler only ever produces values that are exact multiples of one tenth,
  on which JavaScript double arithmetic and printing agree with exact
  rational arithmetic).
* Fallible operations (`JSON.parse`, file reads) return `Option`, where
  `none` models a thrown exception; the optional argument of a file-reading
  function models `fs.existsSync`.
* Effectful phases are embedded as pure functions from their inputs to a
  record of the effects they perform (outputs set, files written, warnings).
-/

namespace Telemetry

abbrev Str := List Char

/-- Characters treated as decimal digits by the numeric (de)serializers. -/
def isDigitC (c : Char) : Bool := '0' ≤ c && c ≤ '9'

/-- The decimal digit character for `d < 10`. -/
def digitChar (d : ℕ) : Char := Char.ofNat (48 + d)

/-- Numeric value of a digit character. -/
def charToDigit (c : Char) : ℕ := c.toNat - 48

/-- Big-endian decimal digits of `n` (empty for `0`), with explicit fuel;
the fuel is always instantiated with `n` itself. -/
def natToCharsAux : ℕ → ℕ → List Char
  | _, 0 => []
  | 0, _ + 1 => []
  | f + 1, n + 1 => natToCharsAux f ((n + 1) / 10) ++ [digitChar ((n + 1) % 10)]

/-- Big-endian decimal digits of `n` (empty for `0`). -/
def natToChars (n : ℕ) : List Char := natToCharsAux n n

/-- Decimal representation of a natural number, as JavaScript prints it. -/
def numStr (n : ℕ) : List Char := if n = 0 then ['0'] else natToChars n

/-- Value of a big-endian digit string. -/
def charsVal (s : List Char) : ℕ :=
  s.foldl (fun a c => a * 10 + charToDigit c) 0

/-- Decimal representation of `k / 10`, as JavaScript prints a number that
is an exact multiple of one tenth (`"12.3"` for `k = 123`, `"50"` for
`k = 500`). -/
def decChars (k : ℕ) : List Char :=
  if k % 10 = 0 then numStr (k / 10)
  else numStr (k / 10) ++ '.' :: numStr (k % 10)

/-- `q` as a count of tenths; meaningful when `q` is a nonnegative multiple
of `1/10`, which holds for every numeric value the sampler writes. -/
def tenths (q : ℚ) : ℕ := (q * 10).num.toNat

/-- JavaScript number-to-string for the sampler's numeric values. -/
def qSer (q : ℚ) : List Char := decChars (tenths q)

/-- JavaScript `Math.round`: round half toward positive infinity. -/
def jsRound (q : ℚ) : ℤ := ⌊q + 1/2⌋

/-- `Math.round(x * 10) / 10` — the one-decimal rounding used throughout. -/
def round1 (q : ℚ) : ℚ := (jsRound (q * 10) : ℚ) / 10

/-- `Math.ceil`. -/
def jsCeil (q : ℚ) : ℤ := ⌈q⌉

/-- JavaScript `String.prototype.trim` whitespace, restricted to the
whitespace characters that can occur in the files this system writes. -/
def isWS (c : Char) : Bool := c == ' ' || c == '\n' || c == '\t' || c == '\r'

/-- JavaScript `content.trim()`. -/
def jsTrim (l : List Char) : List Char :=
  ((l.dropWhile isWS).reverse.dropWhile isWS).reverse

/-- JavaScript `content.split(sep)` for a one-character separator. -/
def splitOnC (sep : Char) : List Char → List (List Char)
  | [] => [[]]
  | x :: xs =>
    if x = sep then [] :: splitOnC sep xs
    else
      match splitOnC sep xs with
      | [] => [[x]]
      | hd :: tl => (x :: hd) :: tl

/-- Consume the literal `pat` from the front of `s` (used by the parsers
that invert the serializers below). -/
def expectChars (pat s : List Char) : Option (List Char) :=
  if pat.isPrefixOf s then some (s.drop pat.length) else none

/-- Parse a JSON string literal `"…"`, returning its content and the rest
of the input (no escape handling: the strings this system serializes
contain no quotes or backslashes). -/
def parseStringLit (s : List Char) : Option (List Char × List Char) :=
  match s with
  | '"' :: t =>
    match t.dropWhile (fun c => !(c == '"')) with
    | '"' :: r => some (t.takeWhile (fun c => !(c == '"')), r)
    | _ => none
  | _ => none

/-- Parse a decimal number (with an optional fractional part) from the
front of `s`, returning its exact rational value and the rest of the
input. -/
def parseDecFrom (s : List Char) : Option (ℚ × List Char) :=
  let ip := s.takeWhile isDigitC
  let r1 := s.dropWhile isDigitC
  if ip.isEmpty then none
  else
    match r1 with
    | [] => some ((charsVal ip : ℚ), [])
    | c :: t =>
      if c = '.' then
        let fr := t.takeWhile isDigitC
        if fr.isEmpty then none
        else some ((charsVal ip : ℚ) + (charsVal fr : ℚ) / 10 ^ fr.length,
                   t.dropWhile isDigitC)
      else some ((charsVal ip : ℚ), c :: t)

/-- Parse a natural number from the front of `s`. -/
def parseNatFrom (s : List Char) : Option (ℕ × List Char) :=
  let ip := s.takeWhile isDigitC
  if ip.isEmpty then none else some (charsVal ip, s.dropWhile isDigitC)

/-- `MetricSample` from `src/types.ts`. -/
structure MetricSample where
  timestamp : Str
  cpu_percent : ℚ
  memory_used_mb : ℚ
  memory_total_mb : ℚ
  memory_percent : ℚ
  deriving DecidableEq

/-- `MetricsSummary` from `src/types.ts`. -/
structure MetricsSummary where
  peak_cpu_percent : ℚ
  peak_memory_percent : ℚ
  avg_cpu_percent : ℚ
  avg_memory_percent : ℚ
  sample_count : ℕ
  start_time : Str
  end_time : Str
  deriving DecidableEq

/-- `MonitorState` from `src/types.ts` — the handoff record written by the
start phase. `monitorPid` is a nonnegative integer (`child.pid || 0`). -/
structure MonitorState where
  metricsDir : Str
  monitorPid : ℕ
  startTime : Str
  deriving DecidableEq

/-- A Linux `/proc/stat` cpu-counter snapshot `{total, idle}` as returned
by `parseCpuStat` in `src/monitor.ts` / `parseCpuStats` in the inlined
monitor script of `src/main.ts`. -/
structure CpuStat where
  total : ℕ
  idle : ℕ
  deriving DecidableEq

/-- `"key":` fragment of a serialized JSON object. -/
def quoteKey (k : Str) : Str := '"' :: k ++ ['"', ':']

/-- A serialized JSON string value. -/
def quoteChars (s : Str) : Str := '"' :: s ++ ['"']

def tsPat : Str := '\x7b' :: quoteKey (("timestamp").toList)
def cpuPat : Str := ',' :: quoteKey (("cpu_percent").toList)
def muPat : Str := ',' :: quoteKey (("memory_used_mb").toList)
def mtPat : Str := ',' :: quoteKey (("memory_total_mb").toList)
def mpPat : Str := ',' :: quoteKey (("memory_percent").toList)
def closeBrace : Str := ['\x7d']

/-- `JSON.stringify(sample)` as written by `saveSample` (`src/monitor.ts`
100–103) and by `collect` in the inlined monitor script (`src/main.ts`
95–110): object keys in insertion order; the timestamps serialized by the
program contain no characters that need escaping. -/
def stringifySample (s : MetricSample) : Str :=
  tsPat ++ quoteChars s.timestamp ++ cpuPat ++ qSer s.cpu_percent ++
    muPat ++ qSer s.memory_used_mb ++ mtPat ++ qSer s.memory_total_mb ++
    mpPat ++ qSer s.memory_percent ++ closeBrace

/-- `JSON.parse(line) as MetricSample` for one log line, over the grammar
of objects the sampler serializes; `none` models a thrown `SyntaxError`. -/
def parseSample (s : Str) : Option MetricSample := do
  let s ← expectChars tsPat s
  let (ts, s) ← parseStringLit s
  let s ← expectChars cpuPat s
  let (cpu, s) ← parseDecFrom s
  let s ← expectChars muPat s
  let (mu, s) ← parseDecFrom s
  let s ← expectChars mtPat s
  let (mt, s) ← parseDecFrom s
  let s ← expectChars mpPat s
  let (mp, s) ← parseDecFrom s
  let s ← expectChars closeBrace s
  if s.isEmpty then some ⟨ts, cpu, mu, mt, mp⟩ else none

/-- `lines.map((line) => JSON.parse(line))`: a parse failure on any line
aborts the whole read (the exception propagates). -/
def parseLines : List Str → Option (List MetricSample)
  | [] => some []
  | l :: ls =>
    match parseSample l, parseLines ls with
    | some s, some ss => some (s :: ss)
    | _, _ => none

/-- `loadSamples` (`src/post.ts` 156–167; the copy in `src/monitor.ts`
105–116 is identical): return `[]` when the file does not exist, otherwise
trim the content, split on newlines, drop empty lines, and `JSON.parse`
every remaining line. `none` models the read throwing. -/
def loadSamples (file : Option Str) : Option (List MetricSample) :=
  match file with
  | none => some []
  | some content =>
    parseLines ((splitOnC '\n' (jsTrim content)).filter (fun l => !l.isEmpty))

/-- The log-file content after appending each sample in order with
`saveSample` (`src/monitor.ts` 100–103): each append writes
`JSON.stringify(sample) + '\n'`. -/
def logContent (samples : List MetricSample) : Str :=
  (samples.map (fun s => stringifySample s ++ ['\n'])).flatten

/-- The log file after `K` `saveSample` appends; `appendFileSync` creates
the file on the first append, so it is absent when no sample was written. -/
def fileAfterAppends (samples : List MetricSample) : Option Str :=
  if samples.isEmpty then none else some (logContent samples)

/-- `calculateSummary` (`src/post.ts` 169–194). The running maxima start at
`0` and the sums accumulate over the loop; the function is only invoked on
a non-empty array (`samples[0]` / `samples[samples.length - 1]` otherwise
fail), which the embedding takes as a hypothesis. -/
def calculateSummary (samples : List MetricSample) (h : samples ≠ []) :
    MetricsSummary :=
  let cpuSum := (samples.map (·.cpu_percent)).sum
  let memSum := (samples.map (·.memory_percent)).sum
  let cpuMax := (samples.map (·.cpu_percent)).foldl
    (fun m x => if x > m then x else m) 0
  let memMax := (samples.map (·.memory_percent)).foldl
    (fun m x => if x > m then x else m) 0
  let count := samples.length
  { peak_cpu_percent := round1 cpuMax
    peak_memory_percent := round1 memMax
    avg_cpu_percent := round1 (cpuSum / count)
    avg_memory_percent := round1 (memSum / count)
    sample_count := count
    start_time := (samples.head h).timestamp
    end_time := (samples.getLast h).timestamp }

/-- One CSV data row (`src/post.ts` 104–106). -/
def csvRow (s : MetricSample) : Str :=
  s.timestamp ++ ',' :: qSer s.cpu_percent ++ ',' :: qSer s.memory_used_mb ++
    ',' :: qSer s.memory_total_mb ++ ',' :: qSer s.memory_percent

def csvHeader : Str :=
  ("timestamp,cpu_percent,memory_used_mb,memory_total_mb,memory_percent").toList

/-- The CSV file content (`src/post.ts` 103–109): header and one row per
sample, joined by newlines. -/
def csvContent (samples : List MetricSample) : Str :=
  List.intercalate ['\n'] (csvHeader :: samples.map csvRow)

/-- Parse a CSV data row back into its five fields — the round-trip inverse
asked for by the spec's testable property 8 (the repository itself never
re-reads the CSV, so the parser follows the row grammar the writer emits). -/
def parseCsvRow (row : Str) : Option MetricSample := do
  let ts := row.takeWhile (fun c => !(c == ','))
  let s ← expectChars [','] (row.dropWhile (fun c => !(c == ',')))
  let (cpu, s) ← parseDecFrom s
  let s ← expectChars [','] s
  let (mu, s) ← parseDecFrom s
  let s ← expectChars [','] s
  let (mt, s) ← parseDecFrom s
  let s ← expectChars [','] s
  let (mp, s) ← parseDecFrom s
  if s.isEmpty then some ⟨ts, cpu, mu, mt, mp⟩ else none

def dirPat : Str := '\x7b' :: quoteKey (("metricsDir").toList)
def pidPat : Str := ',' :: quoteKey (("monitorPid").toList)
def startPat : Str := ',' :: quoteKey (("startTime").toList)

/-- `JSON.stringify(state)` as written by the start phase to both the state
channel and `state.json` (`src/main.ts` 135–145). -/
def stringifyState (st : MonitorState) : Str :=
  dirPat ++ quoteChars st.metricsDir ++ pidPat ++ numStr st.monitorPid ++
    startPat ++ quoteChars st.startTime ++ closeBrace

/-- `JSON.parse(stateJson) as MonitorState` over the grammar the start
phase serializes. -/
def parseState (s : Str) : Option MonitorState := do
  let s ← expectChars dirPat s
  let (dir, s) ← parseStringLit s
  let s ← expectChars pidPat s
  let (pid, s) ← parseNatFrom s
  let s ← expectChars startPat s
  let (stt, s) ← parseStringLit s
  let s ← expectChars closeBrace s
  if s.isEmpty then some ⟨dir, pid, stt⟩ else none

/-- The stop phase's state recovery (`src/post.ts` 31–48): the cross-phase
state channel takes priority (JavaScript truthiness: the empty string means
unset); otherwise the durable `state.json` copy is parsed if present; with
neither, the phase warns and returns. `Except.error` models a thrown
`JSON.parse` failure, `Except.ok none` the warn-and-return path. -/
def recoverState (channel : Str) (file : Option Str) :
    Except Unit (Option MonitorState) :=
  if channel.isEmpty then
    match file with
    | some c =>
      match parseState c with
      | some st => .ok (some st)
      | none => .error ()
    | none => .ok none
  else
    match parseState channel with
    | some st => .ok (some st)
    | none => .error ()

/-- `SystemInfo` (`src/post.ts` 9–26), an input of the stop phase read from
the host. -/
structure SysInfo where
  cpuCores : ℕ
  cpuModel : Str
  totalMemoryMb : ℕ
  platform : Str
  arch : Str
  deriving DecidableEq

/-- The structured content of `<prefix>.json` (`src/post.ts` 89–98). -/
structure JsonOut where
  summary : MetricsSummary
  system : SysInfo
  deriving DecidableEq

/-- Content of a file written by the stop phase. The JSON summary file is
kept structured (its byte serialization is a function of this structure). -/
inductive FileData where
  | json (j : JsonOut)
  | csv (content : Str)
  deriving DecidableEq

/-- The externally visible effects of the stop phase: `setOutput` calls in
order, files written, whether the job summary was rendered, whether a
warning was surfaced, whether the phase failed (`setFailed`). -/
structure PostEffects where
  outputs : List (Str × Str)
  files : List (Str × FileData)
  summaryWritten : Bool
  warned : Bool
  failed : Bool
  deriving DecidableEq

def zeroStr : Str := ['0']
def peakCpuKey : Str := ("peak_cpu").toList
def peakMemKey : Str := ("peak_memory").toList
def avgCpuKey : Str := ("avg_cpu").toList
def avgMemKey : Str := ("avg_memory").toList
def metricsFileKey : Str := ("metrics_file").toList
def summaryLit : Str := ("summary").toList
def bothLit : Str := ("both").toList
def metricsLit : Str := ("metrics").toList
def jsonExt : Str := (".json").toList
def csvExt : Str := (".csv").toList

/-- `setEmptyOutputs` (`src/post.ts` 227–233). -/
def setEmptyOutputs : List (Str × Str) :=
  [(peakCpuKey, zeroStr), (peakMemKey, zeroStr), (avgCpuKey, zeroStr),
   (avgMemKey, zeroStr), (metricsFileKey, [])]

/-- `core.getInput('output_format') || 'summary'` (`src/post.ts` 82). -/
def resolveFmt (f : Str) : Str := if f.isEmpty then summaryLit else f

/-- The stop phase from the point where the samples are loaded
(`src/post.ts` 69–121): with no samples, warn and set zeroed outputs;
otherwise compute the summary, write `<prefix>.json` and `<prefix>.csv`,
set the five outputs, and render the job summary when the output format is
`summary` or `both`. Killing the monitor, the drain sleep, artifact upload
and console logging perform no modeled effects. -/
def postProcess (samples : List MetricSample) (sys : SysInfo)
    (outputFormat artifactName metricsDir : Str) : PostEffects :=
  match samples with
  | [] =>
    { outputs := setEmptyOutputs, files := [], summaryWritten := false,
      warned := true, failed := false }
  | a :: rest =>
    let summary := calculateSummary (a :: rest) (by simp)
    let fmt := resolveFmt outputFormat
    let filePrefix := if artifactName.isEmpty then metricsLit else artifactName
    let metricsFile := metricsDir ++ '/' :: filePrefix ++ jsonExt
    let csvFile := metricsDir ++ '/' :: filePrefix ++ csvExt
    { outputs := [(peakCpuKey, qSer summary.peak_cpu_percent),
                  (peakMemKey, qSer summary.peak_memory_percent),
                  (avgCpuKey, qSer summary.avg_cpu_percent),
                  (avgMemKey, qSer summary.avg_memory_percent),
                  (metricsFileKey, metricsFile)]
      files := [(metricsFile, .json ⟨summary, sys⟩),
                (csvFile, .csv (csvContent (a :: rest)))]
      summaryWritten := fmt == summaryLit || fmt == bothLit
      warned := false, failed := false }

/-- The stop phase including the sample load (`src/post.ts` 67–121): a
throwing `loadSamples` is caught by the surrounding handler, which fails
the phase (`core.setFailed`, line 147–153). -/
def postPhase (logFile : Option Str) (sys : SysInfo)
    (outputFormat artifactName metricsDir : Str) : PostEffects :=
  match loadSamples logFile with
  | none =>
    { outputs := [], files := [], summaryWritten := false, warned := false,
      failed := true }
  | some samples => postProcess samples sys outputFormat artifactName metricsDir

/-- The geometry of a chart produced by `generateSvgChart` (`src/charts.ts`
27–108): the polyline vertices (one per datum) and the data-point circles,
which are emitted only when `data.length <= 50`. The embedding abstracts
the SVG markup to the plotted coordinates the claim is about. -/
structure SvgChart where
  points : List (ℚ × ℚ)
  markers : List (ℚ × ℚ)
  emptyChart : Bool
  deriving DecidableEq

/-- JavaScript `Math.max` over a non-empty array. -/
def maxList (l : List ℚ) : ℚ := l.foldl max (l.head?.getD 0)

/-- `generateSvgChart` (`src/charts.ts` 27–108) with the default options
(width 600, height 200, padding 50): every datum becomes one polyline
vertex at `x = padding + (index / (length - 1 || 1)) * chartWidth`. -/
def generateSvgChart (data : List ℚ) : SvgChart :=
  if data.isEmpty then ⟨[], [], true⟩
  else
    let width : ℚ := 600
    let height : ℚ := 200
    let padding : ℚ := 50
    let chartWidth := width - padding * 2
    let chartHeight := height - padding * 2
    let maxValue : ℚ := max 100 ((jsCeil (maxList data / 10) : ℚ) * 10)
    let minValue : ℚ := 0
    let d := data.length - 1
    let denom : ℚ := if d = 0 then 1 else (d : ℚ)
    let points := data.enum.map (fun p =>
      (padding + ((p.1 : ℚ) / denom) * chartWidth,
       padding + chartHeight - ((p.2 - minValue) / (maxValue - minValue)) * chartHeight))
    ⟨points, if data.length ≤ 50 then points else [], false⟩

/-- The geometry of `generateCombinedChart` (`src/charts.ts` 135–207). -/
structure CombinedChart where
  cpuPoints : List (ℚ × ℚ)
  memPoints : List (ℚ × ℚ)
  emptyChart : Bool
  deriving DecidableEq

/-- `generateCombinedChart` (`src/charts.ts` 135–207): width 700, height
250, padding 50, y-scale fixed to 0–100; each sample contributes one vertex
to the CPU polyline and one to the memory polyline. -/
def generateCombinedChart (samples : List MetricSample) : CombinedChart :=
  if samples.isEmpty then ⟨[], [], true⟩
  else
    let width : ℚ := 700
    let height : ℚ := 250
    let padding : ℚ := 50
    let chartWidth := width - padding * 2
    let chartHeight := height - padding * 2
    let cpuData := samples.map (·.cpu_percent)
    let memData := samples.map (·.memory_percent)
    let maxValue : ℚ := 100
    let minValue : ℚ := 0
    let toPoints := fun (data : List ℚ) =>
      let d := data.length - 1
      let denom : ℚ := if d = 0 then 1 else (d : ℚ)
      data.enum.map (fun p =>
        (padding + ((p.1 : ℚ) / denom) * chartWidth,
         padding + chartHeight - ((p.2 - minValue) / (maxValue - minValue)) * chartHeight))
    ⟨toPoints cpuData, toPoints memData, false⟩

/-- The Linux branch of `getCpuUsage` in `src/monitor.ts` (lines 26–62):
two `/proc/stat` snapshots taken ~100ms apart; when `totalDiff` is not
positive, control falls through to the final `return 0`. -/
def linuxCpuUsage (c1 c2 : CpuStat) : ℚ :=
  let totalDiff : ℚ := (c2.total : ℚ) - (c1.total : ℚ)
  let idleDiff : ℚ := (c2.idle : ℚ) - (c1.idle : ℚ)
  if 0 < totalDiff then (jsRound (((totalDiff - idleDiff) / totalDiff) * 1000) : ℚ) / 10
  else 0

/-- The Linux branch of `getCpuUsage` in the inlined monitor script
(`src/main.ts` 59–75): the previous tick's snapshot is the baseline,
threaded here explicitly instead of the script's ambient `prevCpuStats`;
`none` for the current snapshot models `parseCpuStats()` returning `null`.
Returns the reported cpu percentage and the new baseline. -/
def inlineGetCpuUsage (prev cur : Option CpuStat) : ℚ × Option CpuStat :=
  match cur with
  | none => (0, prev)
  | some c =>
    match prev with
    | none => (0, some c)
    | some p =>
      let idleDelta : ℚ := (c.idle : ℚ) - (p.idle : ℚ)
      let totalDelta : ℚ := (c.total : ℚ) - (p.total : ℚ)
      if 0 < totalDelta then
        (round1 (((totalDelta - idleDelta) / totalDelta) * 100), some c)
      else (0, some c)

/-- The successive cpu percentages collected by the inlined monitor script
on Linux, given the sequence of `/proc/stat` snapshots it reads; the run
starts with no baseline (`prevCpuStats = null`). -/
def inlineTicks (prev : Option CpuStat) : List (Option CpuStat) → List ℚ
  | [] => []
  | c :: cs =>
    let r := inlineGetCpuUsage prev c
    r.1 :: inlineTicks r.2 cs

/-- Modelled from the spec's words (§4.6, for comparison with
`calculateSummary`): the maximum of a non-empty list of values. -/
def maxOf (l : List ℚ) (h : l ≠ []) : ℚ := l.foldl max (l.head h)

/-- Modelled from the spec's words (§4.6): the arithmetic mean. -/
def meanOf (l : List ℚ) : ℚ := l.sum / l.length

/-- A nonnegative multiple of one tenth — the form of every numeric value
the sampler captures (`Math.round(x * 10) / 10` for the percentages,
integers for the memory sizes). -/
def Tenths (q : ℚ) : Prop := ∃ k : ℕ, q = (k : ℚ) / 10

/-- Strings as the sampler writes them (ISO-8601 timestamps): free of the
characters that would interact with JSON escaping, the CSV separator or
the line-oriented log. -/
def PlainStr (s : Str) : Prop := ∀ c ∈ s, c ≠ '"' ∧ c ≠ '\\' ∧ c ≠ '\n' ∧ c ≠ ','

/-- A sample of the shape the sampler actually captures. -/
def GoodSample (s : MetricSample) : Prop :=
  PlainStr s.timestamp ∧ Tenths s.cpu_percent ∧ Tenths s.memory_used_mb ∧
    Tenths s.memory_total_mb ∧ Tenths s.memory_percent

/-- The first character of `r` (if any) can follow a serialized number. -/
def NumRest (r : List Char) : Prop :=
  ∀ c, r.head? = some c → isDigitC c = false ∧ c ≠ '.'

/-- Concrete sample used by witnesses and the C2 failing input. -/
def sampleA : MetricSample := ⟨("t0").toList, 1, 2, 4, 50⟩

/-- C2's failing input: the log after two appends with the second record's
physical write truncated mid-line (cut inside the timestamp field). -/
def truncatedLog : Str :=
  stringifySample sampleA ++ '\n' :: (tsPat ++ '"' :: ("t1").toList)

/-- The spec's concrete aggregation scenario (testable property 5). -/
def c1Samples : List MetricSample :=
  [⟨("t0").toList, 10, 1, 2, 20⟩, ⟨("t1").toList, 90, 1, 2, 95⟩,
   ⟨("t2").toList, 50, 1, 2, 60⟩]

def c1ne : c1Samples ≠ [] := by simp [c1Samples]

/-- 61 identical samples: enough to exceed any 50–60 point cap. -/
def c6Samples : List MetricSample := List.replicate 61 sampleA

/-- Concrete handoff record for the C7 witness. -/
def stateA : MonitorState := ⟨("/tmp/telemetry-metrics").toList, 123, ("t0").toList⟩

/-- Concrete system information for the stop-phase witnesses. -/
def sysA : SysInfo := ⟨4, ("cpu").toList, 16000, ("linux").toList, ("x64").toList⟩

/-- A one-sample log for the C10 witness. -/
def oneSampleLog : Str := stringifySample sampleA ++ ['\n']

/-- Proof helper: lines joined by single newlines (the log content minus
its trailing newline). -/
def interNL : List Str → Str
  | [] => []
  | [l] => l
  | l :: l₂ :: ls => l ++ '\n' :: interNL (l₂ :: ls)

/-- Proof helper: a log line that starts and ends with a non-whitespace
character and contains no newline — true of every serialized sample. -/
def NiceLine (l : Str) : Prop :=
  (∃ a mid b, l = a :: (mid ++ [b]) ∧ isWS a = false ∧ isWS b = false) ∧ '\n' ∉ l

end Telemetry

namespace Telemetry

theorem charToDigit_digitChar {d : ℕ} (h : d < 10) : charToDigit (digitChar d) = d := by
  interval_cases d <;> decide

theorem isDigitC_digitChar {d : ℕ} (h : d < 10) : isDigitC (digitChar d) = true := by
  interval_cases d <;> decide

theorem natToCharsAux_congr (f : ℕ) : ∀ g n, n ≤ f → n ≤ g →
    natToCharsAux f n = natToCharsAux g n := by
  induction f with
  | zero =>
    intro g n h1 _
    interval_cases n
    cases g <;> rfl
  | succ f ih =>
    intro g n h1 h2
    cases n with
    | zero => cases g <;> rfl
    | succ m =>
      cases g with
      | zero => omega
      | succ g' =>
        have hlt : (m + 1) / 10 < m + 1 := Nat.div_lt_self (Nat.succ_pos m) (by norm_num)
        simp only [natToCharsAux]
        rw [ih g' ((m + 1) / 10) (by omega) (by omega)]

theorem natToChars_succ {n : ℕ} (h : n ≠ 0) :
    natToChars n = natToChars (n / 10) ++ [digitChar (n % 10)] := by
  cases n with
  | zero => exact absurd rfl h
  | succ m =>
    show natToCharsAux (m + 1) (m + 1) = _
    have hlt : (m + 1) / 10 < m + 1 := Nat.div_lt_self (Nat.succ_pos m) (by norm_num)
    simp only [natToCharsAux]
    congr 1
    exact natToCharsAux_congr m ((m + 1) / 10) ((m + 1) / 10) (by omega) le_rfl

theorem natToChars_digits (n : ℕ) : ∀ c ∈ natToChars n, isDigitC c = true := by
  induction n using Nat.strong_induction_on with
  | _ n ih =>
    rcases Nat.eq_zero_or_pos n with h | h
    · subst h
      intro c hc
      simp [natToChars, natToCharsAux] at hc
    · rw [natToChars_succ h.ne']
      intro c hc
      rcases List.mem_append.mp hc with hc | hc
      · exact ih (n / 10) (Nat.div_lt_self h (by norm_num)) c hc
      · simp only [List.mem_singleton] at hc
        subst hc
        exact isDigitC_digitChar (Nat.mod_lt n (by norm_num))

theorem charsVal_append_digit (l : List Char) (c : Char) :
    charsVal (l ++ [c]) = charsVal l * 10 + charToDigit c := by
  simp [charsVal, List.foldl_append]

theorem charsVal_natToChars (n : ℕ) : charsVal (natToChars n) = n := by
  induction n using Nat.strong_induction_on with
  | _ n ih =>
    rcases Nat.eq_zero_or_pos n with h | h
    · subst h; rfl
    · rw [natToChars_succ h.ne', charsVal_append_digit,
          ih (n / 10) (Nat.div_lt_self h (by norm_num)),
          charToDigit_digitChar (Nat.mod_lt n (by norm_num))]
      omega

theorem charsVal_numStr (n : ℕ) : charsVal (numStr n) = n := by
  rcases eq_or_ne n 0 with h | h
  · subst h; rfl
  · simp [numStr, h, charsVal_natToChars]

theorem numStr_ne_nil (n : ℕ) : numStr n ≠ [] := by
  rcases eq_or_ne n 0 with h | h
  · subst h; simp [numStr]
  · simp only [numStr, if_neg h]
    rw [natToChars_succ h]
    simp

theorem numStr_digits (n : ℕ) : ∀ c ∈ numStr n, isDigitC c = true := by
  rcases eq_or_ne n 0 with h | h
  · subst h
    intro c hc
    simp only [numStr, if_pos rfl, reduceIte, List.mem_singleton] at hc
    subst hc; decide
  · simp only [numStr, if_neg h]
    exact natToChars_digits n

theorem numStr_length_one {m : ℕ} (h0 : m ≠ 0) (h10 : m < 10) :
    (numStr m).length = 1 := by
  simp only [numStr, if_neg h0]
  rw [natToChars_succ h0, Nat.div_eq_of_lt h10]
  rfl

theorem numRest_nil : NumRest [] := by
  intro c hc
  simp at hc

theorem numRest_cons {c : Char} (t : List Char) (h1 : isDigitC c = false)
    (h2 : c ≠ '.') : NumRest (c :: t) := by
  intro d hd
  simp only [List.head?_cons, Option.some.injEq] at hd
  subst hd
  exact ⟨h1, h2⟩

theorem takeWhile_digits {l r : List Char} (hl : ∀ c ∈ l, isDigitC c = true)
    (hr : ∀ c, r.head? = some c → isDigitC c = false) :
    (l ++ r).takeWhile isDigitC = l ∧ (l ++ r).dropWhile isDigitC = r := by
  constructor
  · rw [List.takeWhile_append_of_pos hl]
    cases r with
    | nil => simp
    | cons c t =>
      have := hr c rfl
      simp [List.takeWhile_cons, this]
  · rw [List.dropWhile_append_of_pos hl]
    cases r with
    | nil => simp
    | cons c t =>
      have := hr c rfl
      simp [List.dropWhile_cons, this]

theorem cast_div10 {k : ℕ} (hk : k % 10 = 0) : ((k / 10 : ℕ) : ℚ) = (k : ℚ) / 10 := by
  have hdvd : 10 ∣ k := Nat.dvd_of_mod_eq_zero hk
  rw [eq_div_iff (by norm_num : (10 : ℚ) ≠ 0)]
  exact_mod_cast Nat.div_mul_cancel hdvd

theorem parseDecFrom_decChars (k : ℕ) (r : List Char) (hr : NumRest r) :
    parseDecFrom (decChars k ++ r) = some ((k : ℚ) / 10, r) := by
  unfold decChars
  by_cases hk : k % 10 = 0
  · rw [if_pos hk]
    obtain ⟨ht, hd⟩ := @takeWhile_digits (numStr (k / 10)) r
      (numStr_digits (k / 10)) (fun c hc => (hr c hc).1)
    simp only [parseDecFrom, ht, hd]
    cases r with
    | nil => simp [numStr_ne_nil, charsVal_numStr, cast_div10 hk]
    | cons c t =>
      have hrc := hr c rfl
      simp [numStr_ne_nil, charsVal_numStr, cast_div10 hk, hrc.2]
  · rw [if_neg hk]
    have hm0 : k % 10 ≠ 0 := hk
    have hm10 : k % 10 < 10 := Nat.mod_lt k (by norm_num)
    rw [List.append_assoc, List.cons_append]
    obtain ⟨ht, hd⟩ := @takeWhile_digits (numStr (k / 10))
      ('.' :: (numStr (k % 10) ++ r)) (numStr_digits (k / 10))
      (fun c hc => by
        simp only [List.head?_cons, Option.some.injEq] at hc
        subst hc; decide)
    obtain ⟨ht2, hd2⟩ := @takeWhile_digits (numStr (k % 10)) r
      (numStr_digits (k % 10)) (fun c hc => (hr c hc).1)
    simp only [parseDecFrom, ht, hd, ht2, hd2]
    have hval : (k : ℚ) = 10 * ((k / 10 : ℕ) : ℚ) + ((k % 10 : ℕ) : ℚ) := by
      exact_mod_cast (Nat.div_add_mod k 10).symm
    simp [numStr_ne_nil, charsVal_numStr, numStr_length_one hm0 hm10]
    field_simp
    linarith [hval]

theorem tenths_div10 (k : ℕ) : tenths ((k : ℚ) / 10) = k := by
  unfold tenths
  rw [div_mul_cancel₀ _ (by norm_num : (10 : ℚ) ≠ 0)]
  simp

theorem parseDecFrom_qSer {q : ℚ} (hq : Tenths q) (r : List Char) (hr : NumRest r) :
    parseDecFrom (qSer q ++ r) = some (q, r) := by
  obtain ⟨k, rfl⟩ := hq
  rw [qSer, tenths_div10]
  exact parseDecFrom_decChars k r hr

theorem isPrefixOf_self_append (p r : List Char) : p.isPrefixOf (p ++ r) = true := by
  induction p with
  | nil => simp
  | cons c p ih => simp [List.isPrefixOf_cons₂, ih]

theorem expectChars_append (pat r : List Char) : expectChars pat (pat ++ r) = some r := by
  simp [expectChars, isPrefixOf_self_append, List.drop_left]

theorem parseStringLit_append (ts r : List Char) (h : '"' ∉ ts) :
    parseStringLit ('"' :: (ts ++ '"' :: r)) = some (ts, r) := by
  have hall : ∀ c ∈ ts, (fun c => !(c == '"')) c = true := by
    intro c hc
    simp only [Bool.not_eq_true', beq_eq_false_iff_ne]
    exact fun e => h (e ▸ hc)
  have hdw : (ts ++ '"' :: r).dropWhile (fun c => !(c == '"')) = '"' :: r := by
    rw [List.dropWhile_append_of_pos hall]
    simp [List.dropWhile_cons]
  have htw : (ts ++ '"' :: r).takeWhile (fun c => !(c == '"')) = ts := by
    rw [List.takeWhile_append_of_pos hall]
    simp [List.takeWhile_cons]
  simp [parseStringLit, hdw, htw]

theorem parseNatFrom_append (n : ℕ) (r : List Char) (hr : NumRest r) :
    parseNatFrom (numStr n ++ r) = some (n, r) := by
  obtain ⟨ht, hd⟩ := takeWhile_digits (numStr_digits n) (fun c hc => (hr c hc).1)
  simp [parseNatFrom, ht, hd, List.isEmpty_iff, numStr_ne_nil n, charsVal_numStr]

theorem numRest_cons_append (c : Char) (x t : Str) (h1 : isDigitC c = false)
    (h2 : c ≠ '.') : NumRest ((c :: x) ++ t) := by
  rw [List.cons_append]
  exact numRest_cons _ h1 h2

theorem numRest_cpuPat (t : Str) : NumRest (cpuPat ++ t) :=
  numRest_cons_append ',' _ t (by decide) (by decide)

theorem numRest_muPat (t : Str) : NumRest (muPat ++ t) :=
  numRest_cons_append ',' _ t (by decide) (by decide)

theorem numRest_mtPat (t : Str) : NumRest (mtPat ++ t) :=
  numRest_cons_append ',' _ t (by decide) (by decide)

theorem numRest_mpPat (t : Str) : NumRest (mpPat ++ t) :=
  numRest_cons_append ',' _ t (by decide) (by decide)

theorem numRest_startPat (t : Str) : NumRest (startPat ++ t) :=
  numRest_cons_append ',' _ t (by decide) (by decide)

theorem numRest_closeBrace : NumRest closeBrace :=
  numRest_cons _ (by decide) (by decide)

theorem expectChars_self (pat : List Char) : expectChars pat pat = some [] := by
  simpa using expectChars_append pat []

/-- `JSON.parse` inverts `JSON.stringify` on samples of the shape the
sampler writes. -/
theorem parseSample_stringifySample (s : MetricSample) (h : GoodSample s) :
    parseSample (stringifySample s) = some s := by
  obtain ⟨hts, hq1, hq2, hq3, hq4⟩ := h
  obtain ⟨ts, cpu, mu, mt, mp⟩ := s
  have hq : '"' ∉ ts := fun hm => (hts _ hm).1 rfl
  simp only [stringifySample, quoteChars, List.append_assoc, List.cons_append,
    List.singleton_append, List.nil_append]
  rw [parseSample]
  simp only [Option.bind_eq_bind]
  rw [expectChars_append]
  simp only [Option.some_bind]
  rw [parseStringLit_append _ _ hq]
  simp only [Option.some_bind]
  rw [expectChars_append]
  simp only [Option.some_bind]
  rw [parseDecFrom_qSer hq1 _ (numRest_muPat _)]
  simp only [Option.some_bind]
  rw [expectChars_append]
  simp only [Option.some_bind]
  rw [parseDecFrom_qSer hq2 _ (numRest_mtPat _)]
  simp only [Option.some_bind]
  rw [expectChars_append]
  simp only [Option.some_bind]
  rw [parseDecFrom_qSer hq3 _ (numRest_mpPat _)]
  simp only [Option.some_bind]
  rw [expectChars_append]
  simp only [Option.some_bind]
  rw [parseDecFrom_qSer hq4 _ numRest_closeBrace]
  simp only [Option.some_bind]
  rw [expectChars_self]
  simp only [Option.some_bind]
  rfl

/-- `JSON.parse` inverts `JSON.stringify` on handoff records whose strings
contain no characters needing escapes. -/
theorem parseState_stringifyState (st : MonitorState)
    (h1 : '"' ∉ st.metricsDir) (h2 : '"' ∉ st.startTime) :
    parseState (stringifyState st) = some st := by
  obtain ⟨dir, pid, stt⟩ := st
  simp only [stringifyState, quoteChars, List.append_assoc, List.cons_append,
    List.singleton_append, List.nil_append]
  rw [parseState]
  simp only [Option.bind_eq_bind]
  rw [expectChars_append]
  simp only [Option.some_bind]
  rw [parseStringLit_append _ _ h1]
  simp only [Option.some_bind]
  rw [expectChars_append]
  simp only [Option.some_bind]
  rw [parseNatFrom_append _ _ (numRest_startPat _)]
  simp only [Option.some_bind]
  rw [expectChars_append]
  simp only [Option.some_bind]
  rw [parseStringLit_append _ _ h2]
  simp only [Option.some_bind]
  rw [expectChars_self]
  simp only [Option.some_bind]
  rfl

theorem commaSplit (ts r : Str) (h : ',' ∉ ts) :
    (ts ++ ',' :: r).takeWhile (fun c => !(c == ',')) = ts ∧
    (ts ++ ',' :: r).dropWhile (fun c => !(c == ',')) = ',' :: r := by
  have hall : ∀ c ∈ ts, (fun c => !(c == ',')) c = true := by
    intro c hc
    simp only [Bool.not_eq_true', beq_eq_false_iff_ne]
    exact fun e => h (e ▸ hc)
  constructor
  · rw [List.takeWhile_append_of_pos hall]
    simp [List.takeWhile_cons]
  · rw [List.dropWhile_append_of_pos hall]
    simp [List.dropWhile_cons]

theorem numRest_comma (t : Str) : NumRest (',' :: t) :=
  numRest_cons _ (by decide) (by decide)

theorem expectChars_comma (r : Str) : expectChars [','] (',' :: r) = some r := by
  simpa using expectChars_append [','] r

/-- Parsing a serialized CSV row recovers the five fields. -/
theorem parseCsvRow_csvRow (s : MetricSample) (h : GoodSample s) :
    parseCsvRow (csvRow s) = some s := by
  obtain ⟨hts, hq1, hq2, hq3, hq4⟩ := h
  obtain ⟨ts, cpu, mu, mt, mp⟩ := s
  have hc : ',' ∉ ts := fun hm => (hts _ hm).2.2.2 rfl
  have hlast : parseDecFrom (qSer mp) = some (mp, []) := by
    simpa using parseDecFrom_qSer hq4 [] numRest_nil
  simp only [csvRow, List.append_assoc, List.cons_append]
  rw [parseCsvRow]
  simp only [Option.bind_eq_bind]
  rw [(commaSplit ts _ hc).2, expectChars_comma]
  simp only [Option.some_bind]
  rw [parseDecFrom_qSer hq1 _ (numRest_comma _)]
  simp only [Option.some_bind]
  rw [expectChars_comma]
  simp only [Option.some_bind]
  rw [parseDecFrom_qSer hq2 _ (numRest_comma _)]
  simp only [Option.some_bind]
  rw [expectChars_comma]
  simp only [Option.some_bind]
  rw [parseDecFrom_qSer hq3 _ (numRest_comma _)]
  simp only [Option.some_bind]
  rw [expectChars_comma]
  simp only [Option.some_bind]
  rw [hlast]
  simp only [Option.some_bind]
  rw [(commaSplit ts _ hc).1]
  rfl

theorem splitOnC_no_sep (c : Char) (l : List Char) (h : c ∉ l) :
    splitOnC c l = [l] := by
  induction l with
  | nil => rfl
  | cons x xs ih =>
    have hx : ¬ x = c := fun e => h (by simp [e])
    have hxs : c ∉ xs := fun hm => h (List.mem_cons_of_mem _ hm)
    simp only [splitOnC, if_neg hx, ih hxs]

theorem splitOnC_append (c : Char) (l r : List Char) (h : c ∉ l) :
    splitOnC c (l ++ c :: r) = l :: splitOnC c r := by
  induction l with
  | nil => simp [splitOnC]
  | cons x xs ih =>
    have hx : ¬ x = c := fun e => h (by simp [e])
    have hxs : c ∉ xs := fun hm => h (List.mem_cons_of_mem _ hm)
    rw [List.cons_append]
    simp only [splitOnC, if_neg hx, ih hxs]

theorem interNL_flatten (L : List Str) (h : L ≠ []) :
    (L.map (fun l => l ++ ['\n'])).flatten = interNL L ++ ['\n'] := by
  induction L with
  | nil => exact absurd rfl h
  | cons l ls ih =>
    cases ls with
    | nil => simp [interNL]
    | cons l₂ ls' =>
      simp only [List.map_cons, List.flatten_cons] at ih ⊢
      rw [ih (by simp)]
      simp [interNL, List.append_assoc]

theorem splitOnC_interNL (L : List Str) (hnl : ∀ l ∈ L, '\n' ∉ l) (h : L ≠ []) :
    splitOnC '\n' (interNL L) = L := by
  induction L with
  | nil => exact absurd rfl h
  | cons l ls ih =>
    cases ls with
    | nil =>
      show splitOnC '\n' l = [l]
      exact splitOnC_no_sep '\n' l (hnl l (by simp))
    | cons l₂ ls' =>
      show splitOnC '\n' (l ++ '\n' :: interNL (l₂ :: ls')) = _
      rw [splitOnC_append '\n' l _ (hnl l (by simp))]
      rw [ih (fun x hx => hnl x (List.mem_cons_of_mem _ hx)) (by simp)]

theorem interNL_shape (L : List Str) (h : L ≠ []) (hn : ∀ l ∈ L, NiceLine l) :
    ∃ a mid b, interNL L = a :: (mid ++ [b]) ∧ isWS a = false ∧ isWS b = false := by
  induction L with
  | nil => exact absurd rfl h
  | cons l ls ih =>
    cases ls with
    | nil =>
      show ∃ a mid b, l = a :: (mid ++ [b]) ∧ _ ∧ _
      exact (hn l (by simp)).1
    | cons l₂ ls' =>
      obtain ⟨a, mid, b, hl, ha, hb⟩ := (hn l (by simp)).1
      obtain ⟨a₂, mid₂, b₂, h₂, _, hb₂⟩ :=
        ih (by simp) (fun x hx => hn x (List.mem_cons_of_mem _ hx))
      refine ⟨a, mid ++ [b] ++ '\n' :: a₂ :: mid₂, b₂, ?_, ha, hb₂⟩
      show l ++ '\n' :: interNL (l₂ :: ls') = _
      rw [hl, h₂]
      simp [List.append_assoc]

theorem jsTrim_wrap (a b : Char) (mid : Str) (ha : isWS a = false)
    (hb : isWS b = false) :
    jsTrim ((a :: (mid ++ [b])) ++ ['\n']) = a :: (mid ++ [b]) := by
  unfold jsTrim
  have h1 : ((a :: (mid ++ [b])) ++ ['\n']).dropWhile isWS
      = (a :: (mid ++ [b])) ++ ['\n'] := by
    rw [List.cons_append]
    simp [List.dropWhile_cons, ha]
  rw [h1]
  have h2 : ((a :: (mid ++ [b])) ++ ['\n']).reverse
      = '\n' :: b :: (mid.reverse ++ [a]) := by
    simp [List.reverse_append, List.reverse_cons]
  rw [h2]
  have h3 : ('\n' :: b :: (mid.reverse ++ [a])).dropWhile isWS
      = b :: (mid.reverse ++ [a]) := by
    have hnl : isWS '\n' = true := by decide
    simp [List.dropWhile_cons, hb, hnl]
  rw [h3]
  simp [List.reverse_append, List.reverse_cons]

theorem numStr_not_nl (n : ℕ) : '\n' ∉ numStr n := by
  intro hm
  have := numStr_digits n _ hm
  exact absurd this (by decide)

theorem qSer_not_nl (q : ℚ) : '\n' ∉ qSer q := by
  intro hm
  unfold qSer decChars at hm
  split at hm
  · exact numStr_not_nl _ hm
  · rcases List.mem_append.mp hm with hm | hm
    · exact numStr_not_nl _ hm
    · rcases List.mem_cons.mp hm with hm | hm
      · exact absurd hm (by decide)
      · exact numStr_not_nl _ hm

theorem stringify_niceLine (s : MetricSample) (h : GoodSample s) :
    NiceLine (stringifySample s) := by
  obtain ⟨hts, _, _, _, _⟩ := h
  constructor
  · refine ⟨'\x7b', quoteKey (("timestamp").toList) ++ quoteChars s.timestamp ++
      cpuPat ++ qSer s.cpu_percent ++ muPat ++ qSer s.memory_used_mb ++
      mtPat ++ qSer s.memory_total_mb ++ mpPat ++ qSer s.memory_percent,
      '\x7d', ?_, by decide, by decide⟩
    simp [stringifySample, tsPat, closeBrace, List.append_assoc]
  · intro hm
    simp only [stringifySample, List.mem_append] at hm
    rcases hm with ((((((((((hm | hm) | hm) | hm) | hm) | hm) | hm) | hm) | hm) | hm) | hm)
    · exact absurd hm (by decide)
    · rcases List.mem_cons.mp hm with hm | hm
      · exact absurd hm (by decide)
      · rcases List.mem_append.mp hm with hm | hm
        · exact (hts _ hm).2.2.1 rfl
        · exact absurd hm (by decide)
    · exact absurd hm (by decide)
    · exact qSer_not_nl _ hm
    · exact absurd hm (by decide)
    · exact qSer_not_nl _ hm
    · exact absurd hm (by decide)
    · exact qSer_not_nl _ hm
    · exact absurd hm (by decide)
    · exact qSer_not_nl _ hm
    · exact absurd hm (by decide)

theorem niceLine_ne_nil {l : Str} (h : NiceLine l) : l ≠ [] := by
  obtain ⟨⟨a, mid, b, hl, _, _⟩, _⟩ := h
  rw [hl]
  simp

theorem parseLines_map (samples : List MetricSample)
    (h : ∀ s ∈ samples, GoodSample s) :
    parseLines (samples.map stringifySample) = some samples := by
  induction samples with
  | nil => rfl
  | cons a t ih =>
    simp only [List.map_cons, parseLines,
      parseSample_stringifySample a (h a (by simp)),
      ih (fun x hx => h x (List.mem_cons_of_mem _ hx))]

theorem loadSamples_fileAfterAppends (samples : List MetricSample)
    (h : ∀ s ∈ samples, GoodSample s) :
    loadSamples (fileAfterAppends samples) = some samples := by
  cases samples with
  | nil => rfl
  | cons s0 rest =>
    have hne : ¬ (s0 :: rest : List MetricSample).isEmpty = true := by simp
    rw [fileAfterAppends, if_neg hne]
    have hLne : (s0 :: rest).map stringifySample ≠ [] := by simp
    have hnice : ∀ l ∈ (s0 :: rest).map stringifySample, NiceLine l := by
      intro l hl
      simp only [List.mem_map] at hl
      obtain ⟨x, hx, rfl⟩ := hl
      exact stringify_niceLine x (h x hx)
    have hnl : ∀ l ∈ (s0 :: rest).map stringifySample, '\n' ∉ l :=
      fun l hl => (hnice l hl).2
    have hlog : logContent (s0 :: rest)
        = (((s0 :: rest).map stringifySample).map (fun l => l ++ ['\n'])).flatten := by
      simp [logContent, List.map_map, Function.comp_def]
    obtain ⟨a, mid, b, hshape, hA, hB⟩ :=
      interNL_shape ((s0 :: rest).map stringifySample) hLne hnice
    simp only [loadSamples]
    rw [hlog, interNL_flatten _ hLne, hshape, jsTrim_wrap a b mid hA hB, ← hshape]
    rw [splitOnC_interNL _ hnl hLne]
    have hfil : ((s0 :: rest).map stringifySample).filter (fun l => !l.isEmpty)
        = (s0 :: rest).map stringifySample := by
      rw [List.filter_eq_self]
      intro l hl
      simp only [Bool.not_eq_true', List.isEmpty_eq_false]
      exact niceLine_ne_nil (hnice l hl)
    rw [hfil]
    exact parseLines_map _ h

theorem foldl_jsmax_eq_max (l : List ℚ) (a : ℚ) :
    l.foldl (fun m x => if x > m then x else m) a = l.foldl max a := by
  induction l generalizing a with
  | nil => rfl
  | cons x t ih =>
    simp only [List.foldl_cons]
    rw [ih]
    congr 1
    rcases le_or_lt x a with h | h
    · rw [if_neg (not_lt.mpr h), max_eq_left h]
    · rw [if_pos h, max_eq_right h.le]

theorem code_max_eq_maxOf (l : List ℚ) (h : l ≠ []) (hpos : ∀ x ∈ l, 0 ≤ x) :
    l.foldl (fun m x => if x > m then x else m) 0 = maxOf l h := by
  cases l with
  | nil => exact absurd rfl h
  | cons a t =>
    rw [foldl_jsmax_eq_max]
    unfold maxOf
    rw [List.foldl_cons, List.foldl_cons, max_eq_right (hpos a (by simp))]
    simp [max_self]

theorem qSer_tenth (k : ℕ) : qSer ((k : ℚ) / 10) = decChars k := by
  rw [qSer, tenths_div10]

theorem goodSampleA : GoodSample sampleA := by
  refine ⟨by unfold PlainStr; decide, ⟨10, ?_⟩, ⟨20, ?_⟩, ⟨40, ?_⟩, ⟨500, ?_⟩⟩ <;>
    norm_num [sampleA]

theorem qSer_one : qSer (1 : ℚ) = ['1'] := by
  rw [(by norm_num : (1 : ℚ) = ((10 : ℕ) : ℚ) / 10), qSer_tenth]
  decide

theorem qSer_two : qSer (2 : ℚ) = ['2'] := by
  rw [(by norm_num : (2 : ℚ) = ((20 : ℕ) : ℚ) / 10), qSer_tenth]
  decide

theorem qSer_four : qSer (4 : ℚ) = ['4'] := by
  rw [(by norm_num : (4 : ℚ) = ((40 : ℕ) : ℚ) / 10), qSer_tenth]
  decide

theorem qSer_fifty : qSer (50 : ℚ) = ['5', '0'] := by
  rw [(by norm_num : (50 : ℚ) = ((500 : ℕ) : ℚ) / 10), qSer_tenth]
  decide

theorem stringifySampleA_concrete :
    stringifySample sampleA =
      ("\x7b\"timestamp\":\"t0\",\"cpu_percent\":1,\"memory_used_mb\":2,\"memory_total_mb\":4,\"memory_percent\":50\x7d").toList := by
  simp only [stringifySample, sampleA, qSer_one, qSer_two, qSer_four, qSer_fifty]
  decide

/-- C1: for every non-empty sequence of samples (whose percentage fields
are nonnegative, as the data model guarantees for captured samples),
`calculateSummary` returns `sample_count` equal to the length of the
sequence, peaks equal to the maxima of the respective fields rounded to one
decimal, averages equal to the arithmetic means rounded to one decimal, and
`start_time`/`end_time` equal to the timestamps of the first and last
sample in arrival order. -/
theorem C1_calculateSummary_correct (samples : List MetricSample)
    (h : samples ≠ []) (hc : ∀ s ∈ samples, 0 ≤ s.cpu_percent)
    (hm : ∀ s ∈ samples, 0 ≤ s.memory_percent) :
    calculateSummary samples h =
      { peak_cpu_percent :=
          round1 (maxOf (samples.map (·.cpu_percent)) (by simpa using h))
        peak_memory_percent :=
          round1 (maxOf (samples.map (·.memory_percent)) (by simpa using h))
        avg_cpu_percent := round1 (meanOf (samples.map (·.cpu_percent)))
        avg_memory_percent := round1 (meanOf (samples.map (·.memory_percent)))
        sample_count := samples.length
        start_time := (samples.head h).timestamp
        end_time := (samples.getLast h).timestamp } := by
  have hmapc : ∀ x ∈ samples.map (·.cpu_percent), 0 ≤ x := by
    intro x hx
    obtain ⟨s, hs, rfl⟩ := List.mem_map.mp hx
    exact hc s hs
  have hmapm : ∀ x ∈ samples.map (·.memory_percent), 0 ≤ x := by
    intro x hx
    obtain ⟨s, hs, rfl⟩ := List.mem_map.mp hx
    exact hm s hs
  simp only [calculateSummary, meanOf,
    code_max_eq_maxOf _ (by simpa using h) hmapc,
    code_max_eq_maxOf _ (by simpa using h) hmapm,
    List.length_map]

/-- Witness for C1 at the spec's concrete aggregation scenario (testable
property 5): peaks 90/95, averages 50/58.3, count 3, first/last timestamps. -/
theorem C1_witness :
    calculateSummary c1Samples c1ne =
      { peak_cpu_percent := 90, peak_memory_percent := 95,
        avg_cpu_percent := 50, avg_memory_percent := 58.3, sample_count := 3,
        start_time := ("t0").toList, end_time := ("t2").toList } := by
  have hhead : c1Samples.head c1ne = ⟨("t0").toList, 10, 1, 2, 20⟩ := rfl
  have hlast : c1Samples.getLast c1ne = ⟨("t2").toList, 50, 1, 2, 60⟩ := rfl
  rw [C1_calculateSummary_correct c1Samples c1ne (by norm_num [c1Samples])
    (by norm_num [c1Samples])]
  rw [hhead, hlast]
  simp only [c1Samples, List.map_cons, List.map_nil, maxOf, meanOf,
    List.head_cons, List.foldl_cons, List.foldl_nil, List.sum_cons,
    List.sum_nil, List.length_cons, List.length_nil]
  norm_num [round1, jsRound, MetricsSummary.mk.injEq]

/-- C2 (evaluating the code at the failing input): after two appends with
the second record's physical write truncated mid-line, `loadSamples` does
not return the one successfully parsed preceding record — the unguarded
`JSON.parse` raises and the whole read fails (`none`) — even though the
preceding line parses fine on its own. -/
theorem C2_loadSamples_truncated_raises :
    loadSamples (some truncatedLog) = none ∧
      parseSample (stringifySample sampleA) = some sampleA := by
  constructor
  · simp only [truncatedLog, stringifySampleA_concrete]
    decide
  · exact parseSample_stringifySample sampleA goodSampleA

/-- C3: appending K well-formed samples with `saveSample` and then calling
`loadSamples` on the same directory returns exactly K records, field for
field equal to the appended samples, in append order. -/
theorem C3_saveLoad_roundtrip (samples : List MetricSample)
    (h : ∀ s ∈ samples, GoodSample s) :
    loadSamples (fileAfterAppends samples) = some samples :=
  loadSamples_fileAfterAppends samples h

/-- Witness for C3 with one concrete appended sample. -/
theorem C3_witness : loadSamples (fileAfterAppends [sampleA]) = some [sampleA] :=
  C3_saveLoad_roundtrip [sampleA] (by
    intro s hs
    simp only [List.mem_singleton] at hs
    subst hs
    exact goodSampleA)

/-- C4: the Linux differential CPU measurement reports
`(totalDelta - idleDelta) / totalDelta * 100` rounded to one decimal
whenever `totalDelta > 0`, reports `0` when `totalDelta = 0` instead of
dividing, and yields `90.0` on the spec's concrete snapshot pair
`{idle:100,total:1000}` then `{idle:150,total:1500}`. -/
theorem C4_linuxCpuUsage_spec (c1 c2 : CpuStat) :
    ((0 : ℚ) < (c2.total : ℚ) - (c1.total : ℚ) →
      linuxCpuUsage c1 c2 =
        round1 ((((c2.total : ℚ) - (c1.total : ℚ)) - ((c2.idle : ℚ) - (c1.idle : ℚ)))
          / ((c2.total : ℚ) - (c1.total : ℚ)) * 100)) ∧
    ((c2.total : ℚ) - (c1.total : ℚ) = 0 → linuxCpuUsage c1 c2 = 0) ∧
    linuxCpuUsage ⟨1000, 100⟩ ⟨1500, 150⟩ = 90 := by
  refine ⟨?_, ?_, ?_⟩
  · intro h
    simp only [linuxCpuUsage, round1, jsRound, if_pos h]
    congr 3
    ring
  · intro h
    simp [linuxCpuUsage, h]
  · norm_num [linuxCpuUsage, jsRound]

/-- Witness for C4 at the spec's concrete snapshots. -/
theorem C4_witness : linuxCpuUsage ⟨1000, 100⟩ ⟨1500, 150⟩ = 90 :=
  ((C4_linuxCpuUsage_spec ⟨1000, 100⟩ ⟨1500, 150⟩).1 (by norm_num)).trans
    (by norm_num [round1, jsRound])

/-- C5: if the stop phase loads zero samples it warns, sets each of the
four numeric outputs to the string "0" and `metrics_file` to the empty
string, writes no files, renders no summary, and completes without failing
the phase. -/
theorem C5_empty_samples_outputs (logFile : Option Str) (sys : SysInfo)
    (fmt art dir : Str) (h : loadSamples logFile = some []) :
    postPhase logFile sys fmt art dir =
      { outputs := [(peakCpuKey, zeroStr), (peakMemKey, zeroStr),
                    (avgCpuKey, zeroStr), (avgMemKey, zeroStr),
                    (metricsFileKey, [])],
        files := [], summaryWritten := false, warned := true,
        failed := false } := by
  simp [postPhase, h, postProcess, setEmptyOutputs]

/-- Witness for C5: an absent log file loads as zero samples. -/
theorem C5_witness :
    postPhase none sysA [] [] [] =
      { outputs := [(peakCpuKey, zeroStr), (peakMemKey, zeroStr),
                    (avgCpuKey, zeroStr), (avgMemKey, zeroStr),
                    (metricsFileKey, [])],
        files := [], summaryWritten := false, warned := true,
        failed := false } :=
  C5_empty_samples_outputs none sysA [] [] [] rfl

/-- C6 counterexample: with 61 samples the combined chart plots 61 polyline
vertices — more than the claimed 50–60 point cap — so no downsampling to a
fixed maximum point count happens. -/
theorem C6_counterexample :
    ¬ ((generateCombinedChart c6Samples).cpuPoints.length ≤ 60) := by
  have h : (generateCombinedChart c6Samples).cpuPoints.length = 61 := by
    simp [generateCombinedChart, c6Samples]
  omega

/-- C6 amended: the chart generators do not downsample — every sample of
the raw series produces exactly one polyline vertex in both charts; the
only length-capped elements are `generateSvgChart`'s circular point
markers, drawn exactly when the series has at most 50 points. -/
theorem C6_amended (samples : List MetricSample) (data : List ℚ) :
    (generateCombinedChart samples).cpuPoints.length = samples.length ∧
    (generateCombinedChart samples).memPoints.length = samples.length ∧
    (generateSvgChart data).points.length = data.length ∧
    (generateSvgChart data).markers.length =
      (if data.length ≤ 50 then data.length else 0) := by
  refine ⟨?_, ?_, ?_, ?_⟩
  · rcases samples with _ | ⟨a, t⟩ <;> simp [generateCombinedChart]
  · rcases samples with _ | ⟨a, t⟩ <;> simp [generateCombinedChart]
  · rcases data with _ | ⟨a, t⟩ <;> simp [generateSvgChart]
  · rcases data with _ | ⟨a, t⟩
    · simp [generateSvgChart]
    · simp [generateSvgChart]
      split <;> simp

/-- C7: a handoff record written at start and read back at stop — through
the cross-phase state channel, or through the durable `state.json` copy
when the channel is empty — is recovered field for field. -/
theorem C7_state_roundtrip (st : MonitorState)
    (h1 : '"' ∉ st.metricsDir) (h2 : '"' ∉ st.startTime) :
    (∀ file, recoverState (stringifyState st) file = .ok (some st)) ∧
    recoverState [] (some (stringifyState st)) = .ok (some st) := by
  have hp := parseState_stringifyState st h1 h2
  have hne : (stringifyState st).isEmpty = false := by
    obtain ⟨dir, pid, stt⟩ := st
    rfl
  constructor
  · intro file
    simp [recoverState, hne, hp]
  · simp [recoverState, hp]

/-- Witness for C7 at a concrete handoff record, through both channels. -/
theorem C7_witness :
    recoverState (stringifyState stateA) none = .ok (some stateA) ∧
    recoverState [] (some (stringifyState stateA)) = .ok (some stateA) :=
  ⟨(C7_state_roundtrip stateA (by decide) (by decide)).1 none,
   (C7_state_roundtrip stateA (by decide) (by decide)).2⟩

/-- C8: serializing a captured sample as a CSV row in the order
timestamp,cpu_percent,memory_used_mb,memory_total_mb,memory_percent and
parsing the row back reproduces the original five field values exactly. -/
theorem C8_csv_roundtrip (s : MetricSample) (h : GoodSample s) :
    parseCsvRow (csvRow s) = some s :=
  parseCsvRow_csvRow s h

/-- Witness for C8 at a concrete sample. -/
theorem C8_witness : parseCsvRow (csvRow sampleA) = some sampleA :=
  C8_csv_roundtrip sampleA goodSampleA

/-- C9: the inlined monitor script's Linux CPU path has no baseline on the
first tick (`prevCpuStats` starts null), so the first collected sample of
any run reports `cpu_percent = 0`, whatever the first snapshot — and hence
whatever the actual CPU load. -/
theorem C9_first_tick_zero (cur : Option CpuStat)
    (rest : List (Option CpuStat)) :
    (inlineTicks none (cur :: rest)).head? = some 0 := by
  cases cur <;> simp [inlineTicks, inlineGetCpuUsage]

/-- C10: two stop-phase runs over the same sample log that differ only in
`output_format` write identical files and set identical outputs; the
format only controls whether the job summary is rendered, which (when at
least one sample was collected) happens exactly when the resolved format —
'summary' when the input is empty — is 'summary' or 'both'. -/
theorem C10_output_format_noninterference (logFile : Option Str)
    (sys : SysInfo) (f1 f2 art dir : Str) :
    (postPhase logFile sys f1 art dir).files
      = (postPhase logFile sys f2 art dir).files ∧
    (postPhase logFile sys f1 art dir).outputs
      = (postPhase logFile sys f2 art dir).outputs ∧
    (∀ samples, loadSamples logFile = some samples → samples ≠ [] →
      ((postPhase logFile sys f1 art dir).summaryWritten = true ↔
        (resolveFmt f1 = summaryLit ∨ resolveFmt f1 = bothLit))) := by
  rcases hload : loadSamples logFile with _ | samples
  · simp [postPhase, hload]
  · cases samples with
    | nil =>
      refine ⟨by simp [postPhase, hload, postProcess],
        by simp [postPhase, hload, postProcess], ?_⟩
      intro samples hs hne
      injection hs with hs
      exact absurd hs.symm hne
    | cons a t =>
      refine ⟨by simp [postPhase, hload, postProcess],
        by simp [postPhase, hload, postProcess], ?_⟩
      intro samples hs hne
      simp [postPhase, hload, postProcess]

/-- Witness for C10 at a one-sample log. -/
theorem C10_witness :
    (postPhase (some oneSampleLog) sysA [] [] []).summaryWritten = true ↔
      (resolveFmt [] = summaryLit ∨ resolveFmt [] = bothLit) := by
  have hl : loadSamples (some oneSampleLog) = some [sampleA] := by
    have h2 : (some oneSampleLog : Option Str) = fileAfterAppends [sampleA] := by
      simp [fileAfterAppends, oneSampleLog, logContent]
    rw [h2]
    exact loadSamples_fileAfterAppends [sampleA] (by
      intro s hs
      simp only [List.mem_singleton] at hs
      subst hs
      exact goodSampleA)
  exact (C10_output_format_noninterference (some oneSampleLog) sysA []
    (("json").toList) [] []).2.2 [sampleA] hl (by simp)

end Telemetry



